import Mathlib

/-!
Verification development for the voice-agent-mastra-demo repository.

This file gives a shallow embedding, in Lean 4, of the data model and the
operations of the backend: the session / message / user store built on the
SQL layer (packages/backend/src/services/database.ts and its second
variant), the Express route handlers (routes/sessions.ts, the users and
messages routers, the POST /api/messages handler of the server entry
point), the Socket.IO realtime gateway, the pattern-matching entity
extraction service (MastraLocalService), the voice agent
(voiceAssistant.agent.ts) and the AI integration pipeline
(services/ai-integration.ts).  Machine times are modelled as integer
millisecond timestamps, JSON values by an explicit inductive type with an
executable printer and parser mirroring JSON.stringify / JSON.parse, and
the JavaScript regular expressions used by the extraction service by a
small executable backtracking matcher over an explicit pattern AST.
-/

set_option maxRecDepth 40000

namespace VoiceAgent

/-! ### JSON values, JSON.stringify and JSON.parse

The persistence layer serialises the nested `metadata` / `preferences`
objects with JSON.stringify on write and JSON.parse on read
(database.ts, createSession / getSession and friends).  We model JSON
values with integer numerics (the repository only round-trips plain
records), a printer producing the compact JSON.stringify output and a
recursive-descent parser; JSON.parse throwing on malformed input is
modelled by the parser returning none. -/

inductive Json where
  | null : Json
  | bool (b : Bool) : Json
  | num (n : Int) : Json
  | str (s : String) : Json
  | arr (elems : List Json) : Json
  | obj (fields : List (String × Json)) : Json

/-- The left brace character, written by code point to keep braces out of
string literals. -/
def braceL : Char := Char.ofNat 123

/-- The right brace character. -/
def braceR : Char := Char.ofNat 125

/-- Escape one character of a JSON string the way JSON.stringify does for
the characters that occur in this development. -/
def jsonEscapeChar (c : Char) : List Char :=
  if c = '"' then ['\\', '"']
  else if c = '\\' then ['\\', '\\']
  else if c = '\n' then ['\\', 'n']
  else if c = '\r' then ['\\', 'r']
  else if c = '\t' then ['\\', 't']
  else [c]

/-- Print a JSON string literal with surrounding quotes. -/
def jsonQuote (s : String) : List Char :=
  '"' :: (s.data.flatMap jsonEscapeChar) ++ ['"']

mutual

/-- Compact printing of a JSON value, as JSON.stringify produces it
(no whitespace, fields in insertion order). -/
def jsonPrint : Json → List Char
  | .null => "null".data
  | .bool true => "true".data
  | .bool false => "false".data
  | .num n => (toString n).data
  | .str s => jsonQuote s
  | .arr elems => '[' :: jsonPrintList elems ++ [']']
  | .obj fields => braceL :: jsonPrintFields fields ++ [braceR]

/-- Print the comma-separated elements of a JSON array. -/
def jsonPrintList : List Json → List Char
  | [] => []
  | [v] => jsonPrint v
  | v :: rest => jsonPrint v ++ ',' :: jsonPrintList rest

/-- Print the comma-separated fields of a JSON object. -/
def jsonPrintFields : List (String × Json) → List Char
  | [] => []
  | [(k, v)] => jsonQuote k ++ ':' :: jsonPrint v
  | (k, v) :: rest => jsonQuote k ++ ':' :: jsonPrint v ++ ',' :: jsonPrintFields rest

end

/-- Render a JSON value to a string, the model of JSON.stringify. -/
def jsonStringify (v : Json) : String := String.mk (jsonPrint v)

/-- JSON whitespace recognised by JSON.parse. -/
def jsonWs (c : Char) : Bool :=
  c = ' ' || c = '\t' || c = '\n' || c = '\r'

/-- Drop leading JSON whitespace. -/
def skipWs : List Char → List Char
  | [] => []
  | c :: rest => if jsonWs c then skipWs rest else c :: rest

/-- Decode a single (possibly escaped) character inside a JSON string
literal, returning the character and the remaining input. -/
def jsonParseStrChar : List Char → Option (Char × List Char)
  | [] => none
  | '\\' :: esc :: rest =>
      if esc = '"' then some ('"', rest)
      else if esc = '\\' then some ('\\', rest)
      else if esc = '/' then some ('/', rest)
      else if esc = 'n' then some ('\n', rest)
      else if esc = 'r' then some ('\r', rest)
      else if esc = 't' then some ('\t', rest)
      else none
  | '\\' :: [] => none
  | c :: rest => if c = '"' then none else some (c, rest)

/-- Parse the body of a JSON string literal up to the closing quote,
driven by fuel for termination. -/
def jsonParseStrBody : Nat → List Char → Option (List Char × List Char)
  | 0, _ => none
  | _ + 1, '"' :: rest => some ([], rest)
  | fuel + 1, input =>
      match jsonParseStrChar input with
      | none => none
      | some (c, rest) =>
          match jsonParseStrBody fuel rest with
          | none => none
          | some (cs, rest2) => some (c :: cs, rest2)

/-- Parse an unsigned run of decimal digits. -/
def jsonParseDigits : List Char → Option (Nat × List Char)
  | input =>
      let digits := input.takeWhile (fun c => c.isDigit)
      let rest := input.dropWhile (fun c => c.isDigit)
      if digits.isEmpty then none
      else some (digits.foldl (fun acc c => acc * 10 + (c.toNat - '0'.toNat)) 0, rest)

mutual

/-- Parse one JSON value.  The fuel argument only bounds the recursion
depth; it is chosen large enough at every call site. -/
def jsonParseValue : Nat → List Char → Option (Json × List Char)
  | 0, _ => none
  | fuel + 1, input =>
      match skipWs input with
      | [] => none
      | c :: rest =>
          if c = 'n' then
            match rest with
            | 'u' :: 'l' :: 'l' :: rest2 => some (.null, rest2)
            | _ => none
          else if c = 't' then
            match rest with
            | 'r' :: 'u' :: 'e' :: rest2 => some (.bool true, rest2)
            | _ => none
          else if c = 'f' then
            match rest with
            | 'a' :: 'l' :: 's' :: 'e' :: rest2 => some (.bool false, rest2)
            | _ => none
          else if c = '"' then
            match jsonParseStrBody (rest.length + 1) rest with
            | some (cs, rest2) => some (.str (String.mk cs), rest2)
            | none => none
          else if c = '-' then
            match jsonParseDigits rest with
            | some (n, rest2) => some (.num (-(n : Int)), rest2)
            | none => none
          else if c.isDigit then
            match jsonParseDigits (c :: rest) with
            | some (n, rest2) => some (.num (n : Int), rest2)
            | none => none
          else if c = '[' then
            match skipWs rest with
            | ']' :: rest2 => some (.arr [], rest2)
            | rest1 =>
                match jsonParseElems fuel rest1 with
                | some (vs, rest2) => some (.arr vs, rest2)
                | none => none
          else if c = braceL then
            match skipWs rest with
            | d :: rest2 =>
                if d = braceR then some (.obj [], rest2)
                else
                  match jsonParseFields fuel (d :: rest2) with
                  | some (fs, rest3) => some (.obj fs, rest3)
                  | none => none
            | [] => none
          else none

/-- Parse the comma-separated elements of a JSON array up to the closing
bracket. -/
def jsonParseElems : Nat → List Char → Option (List Json × List Char)
  | 0, _ => none
  | fuel + 1, input =>
      match jsonParseValue fuel input with
      | none => none
      | some (v, rest) =>
          match skipWs rest with
          | ',' :: rest2 =>
              match jsonParseElems fuel rest2 with
              | some (vs, rest3) => some (v :: vs, rest3)
              | none => none
          | ']' :: rest2 => some ([v], rest2)
          | _ => none

/-- Parse the comma-separated fields of a JSON object up to the closing
brace. -/
def jsonParseFields : Nat → List Char → Option (List (String × Json) × List Char)
  | 0, _ => none
  | fuel + 1, input =>
      match skipWs input with
      | '"' :: rest =>
          match jsonParseStrBody (rest.length + 1) rest with
          | none => none
          | some (cs, rest1) =>
              match skipWs rest1 with
              | ':' :: rest2 =>
                  match jsonParseValue fuel rest2 with
                  | none => none
                  | some (v, rest3) =>
                      match skipWs rest3 with
                      | ',' :: rest4 =>
                          match jsonParseFields fuel rest4 with
                          | some (fs, rest5) => some ((String.mk cs, v) :: fs, rest5)
                          | none => none
                      | d :: rest4 =>
                          if d = braceR then some ([(String.mk cs, v)], rest4)
                          else none
                      | [] => none
              | _ => none
      | _ => none

end

/-- The model of JSON.parse: parse a complete JSON document, requiring
the whole input to be consumed; malformed input yields none (JSON.parse
throws a SyntaxError there). -/
def jsonParse (s : String) : Option Json :=
  match jsonParseValue (s.length + 1) s.data with
  | some (v, rest) => if (skipWs rest).isEmpty then some v else none
  | none => none

/-! ### The session table

Sessions are stored in the `sessions` table of database.ts with columns
id, user_id, start_time, end_time (nullable), status (checked against
active / ended / paused) and a JSON metadata column.  Timestamps are
integer epoch milliseconds. -/

/-- The closed status enum of the sessions table. -/
inductive SessionStatus where
  | active : SessionStatus
  | ended : SessionStatus
  | paused : SessionStatus
  deriving DecidableEq

/-- One row of the sessions table.  The metadata column stores the JSON
text blob exactly as written (JSON.stringify output or, for the
corruption scenarios, an arbitrary string). -/
structure SessionRow where
  id : String
  user_id : String
  start_time : Int
  end_time : Option Int
  status : SessionStatus
  metadataBlob : String
  deriving DecidableEq

/-- The sessions table in row order. -/
abbrev SessionTable := List SessionRow

/-- Model of SELECT * FROM sessions WHERE id = ? (first matching row, as
consumed by getSession which reads result.data[0]). -/
def getSessionRow (db : SessionTable) (sessionId : String) : Option SessionRow :=
  db.find? (fun r => r.id = sessionId)

/-- The partial update passed to DatabaseService.updateSession: each
field is included in the SET clause only when present in the update
object (the code tests plain truthiness, which for these field types
coincides with presence). -/
structure SessionUpdates where
  status : Option SessionStatus
  endTime : Option Int
  metadata : Option Json

/-- Apply updateSession's SET clauses to one row: status and end_time
are overwritten when supplied and left untouched otherwise — in
particular end_time is never cleared. -/
def applySessionUpdates (u : SessionUpdates) (r : SessionRow) : SessionRow :=
  let r1 := match u.status with
    | some st => { r with status := st }
    | none => r
  let r2 := match u.endTime with
    | some t => { r1 with end_time := some t }
    | none => r1
  match u.metadata with
  | some m => { r2 with metadataBlob := jsonStringify m }
  | none => r2

/-- DatabaseService.updateSession: UPDATE sessions SET ... WHERE id = ?. -/
def updateSession (db : SessionTable) (sessionId : String) (u : SessionUpdates) : SessionTable :=
  db.map (fun r => if r.id = sessionId then applySessionUpdates u r else r)

/-- Outcomes of the HTTP handlers, by status code family. -/
inductive HttpOutcome where
  | ok : HttpOutcome
  | created : HttpOutcome
  | badRequest : HttpOutcome
  | notFound : HttpOutcome
  | conflict : HttpOutcome
  deriving DecidableEq

/-- POST /api/sessions: builds a session with startTime now, status
active and no endTime, and DatabaseService.createSession inserts it with
metadata serialised as JSON.stringify(session.metadata or empty). -/
def createSessionHandler (db : SessionTable) (newId userId : String) (now : Int)
    (metadata : Option Json) : HttpOutcome × SessionTable :=
  (.created,
    db ++ [{ id := newId, user_id := userId, start_time := now, end_time := none,
             status := .active, metadataBlob := jsonStringify (metadata.getD (.obj [])) }])

/-- PUT /api/sessions/:sessionId: 404 when the session does not exist,
otherwise updateSession with exactly the fields present in the body. -/
def putSessionHandler (db : SessionTable) (sessionId : String) (u : SessionUpdates) :
    HttpOutcome × SessionTable :=
  match getSessionRow db sessionId with
  | none => (.notFound, db)
  | some _ => (.ok, updateSession db sessionId u)

/-- POST /api/sessions/:sessionId/end: 404 when missing, 400 when the
session is already ended, otherwise updateSession with status ended and
endTime now. -/
def endSessionHandler (db : SessionTable) (sessionId : String) (now : Int) :
    HttpOutcome × SessionTable :=
  match getSessionRow db sessionId with
  | none => (.notFound, db)
  | some s =>
      if s.status = .ended then (.badRequest, db)
      else (.ok, updateSession db sessionId { status := some .ended, endTime := some now, metadata := none })

/-- POST /api/sessions/:sessionId/pause: 404 when missing, 400 when
already paused, otherwise updateSession with status paused only. -/
def pauseSessionHandler (db : SessionTable) (sessionId : String) :
    HttpOutcome × SessionTable :=
  match getSessionRow db sessionId with
  | none => (.notFound, db)
  | some s =>
      if s.status = .paused then (.badRequest, db)
      else (.ok, updateSession db sessionId { status := some .paused, endTime := none, metadata := none })

/-- POST /api/sessions/:sessionId/resume: 404 when missing, 400 when
already active, otherwise updateSession with status active only — the
handler supplies no endTime, and updateSession never clears end_time. -/
def resumeSessionHandler (db : SessionTable) (sessionId : String) :
    HttpOutcome × SessionTable :=
  match getSessionRow db sessionId with
  | none => (.notFound, db)
  | some s =>
      if s.status = .active then (.badRequest, db)
      else (.ok, updateSession db sessionId { status := some .active, endTime := none, metadata := none })

/-- The cleanup window of cleanupExpiredSessions: 30 minutes in
milliseconds (start_time < now - 30 minutes). -/
def sessionTimeoutMs : Int := 30 * 60 * 1000

/-- Does the cleanup UPDATE's WHERE clause select this row: status
active and start_time older than the 30-minute window. -/
def sessionExpired (now : Int) (r : SessionRow) : Bool :=
  r.status = .active && r.start_time < now - sessionTimeoutMs

/-- DatabaseService.cleanupExpiredSessions: one row scan of UPDATE
sessions SET status = ended, end_time = now WHERE status = active AND
start_time < now - 30 minutes, returning the updated table and the
number of changed rows. -/
def cleanupExpiredSessions (db : SessionTable) (now : Int) : SessionTable × Nat :=
  match db with
  | [] => ([], 0)
  | r :: rest =>
      let (restOut, n) := cleanupExpiredSessions rest now
      if sessionExpired now r then
        ({ r with status := .ended, end_time := some now } :: restOut, n + 1)
      else
        (r :: restOut, n)

/-- One application of a public session operation to the table. -/
inductive SessionStep : SessionTable → SessionTable → Prop where
  | create (db : SessionTable) (newId userId : String) (now : Int) (metadata : Option Json) :
      SessionStep db (createSessionHandler db newId userId now metadata).2
  | put (db : SessionTable) (sessionId : String) (u : SessionUpdates) :
      SessionStep db (putSessionHandler db sessionId u).2
  | endS (db : SessionTable) (sessionId : String) (now : Int) :
      SessionStep db (endSessionHandler db sessionId now).2
  | pause (db : SessionTable) (sessionId : String) :
      SessionStep db (pauseSessionHandler db sessionId).2
  | resume (db : SessionTable) (sessionId : String) :
      SessionStep db (resumeSessionHandler db sessionId).2
  | cleanup (db : SessionTable) (now : Int) :
      SessionStep db (cleanupExpiredSessions db now).1

/-- Tables reachable from the empty table by the public operations. -/
inductive SessionReach : SessionTable → Prop where
  | init : SessionReach []
  | next {db db2 : SessionTable} : SessionReach db → SessionStep db db2 → SessionReach db2

/-- The spec's session invariant: endTime is set iff status is ended. -/
def sessionInvariant (r : SessionRow) : Prop :=
  r.status = .ended ↔ r.end_time.isSome

instance (r : SessionRow) : Decidable (sessionInvariant r) := by
  unfold sessionInvariant
  infer_instance

/-! ### The in-memory Session record and getSession decoding

getSession maps a row back to the Session shape used by the handlers,
decoding the metadata blob with a bare JSON.parse: an empty (falsy)
column yields undefined metadata, and a non-empty malformed blob makes
JSON.parse throw, which getSession does not catch. -/

/-- The Session record of the shared package, with decoded metadata. -/
structure Session where
  id : String
  userId : String
  startTime : Int
  endTime : Option Int
  status : SessionStatus
  metadata : Option Json

/-- DatabaseService.getSession: look the row up and decode it.  The
error case models the uncaught JSON.parse SyntaxError on a non-empty
malformed metadata blob. -/
def getSession (db : SessionTable) (sessionId : String) : Except String (Option Session) :=
  match getSessionRow db sessionId with
  | none => .ok none
  | some row =>
      if row.metadataBlob = "" then
        .ok (some { id := row.id, userId := row.user_id, startTime := row.start_time,
                    endTime := row.end_time, status := row.status, metadata := none })
      else
        match jsonParse row.metadataBlob with
        | some v =>
            .ok (some { id := row.id, userId := row.user_id, startTime := row.start_time,
                        endTime := row.end_time, status := row.status, metadata := some v })
        | none => .error "SyntaxError: Unexpected token in JSON"

/-- DatabaseService.createSession seen at the Session level: INSERT the
record with its metadata serialised (session.metadata or empty object). -/
def createSession (db : SessionTable) (s : Session) : SessionTable :=
  db ++ [{ id := s.id, user_id := s.userId, start_time := s.startTime, end_time := s.endTime,
           status := s.status, metadataBlob := jsonStringify (s.metadata.getD (.obj [])) }]

/-! ### The users table

users(id, name, email UNIQUE, preferences JSON); the POST /api/users
handler checks getUserByEmail first and answers 409 Conflict when a user
with the email already exists, leaving the table untouched. -/

/-- One row of the users table. -/
structure UserRow where
  id : String
  name : String
  email : String
  preferencesBlob : String
  deriving DecidableEq

/-- The users table in row order. -/
abbrev UserTable := List UserRow

/-- DatabaseService.getUserByEmail: first row with the given email. -/
def getUserByEmail (db : UserTable) (email : String) : Option UserRow :=
  db.find? (fun r => r.email = email)

/-- POST /api/users: after schema validation the handler answers 409 and
performs no insert when a user with the email exists, otherwise inserts
the new user with JSON-serialised preferences and answers 201. -/
def createUserHandler (db : UserTable) (newId name email : String) (preferences : Json) :
    HttpOutcome × UserTable :=
  match getUserByEmail db email with
  | some _ => (.conflict, db)
  | none =>
      (.created, db ++ [{ id := newId, name := name, email := email,
                          preferencesBlob := jsonStringify preferences }])

/-! ### JavaScript regular expressions used by the extraction service

MastraLocalService.extractEntitiesFromMessage matches six fixed
patterns with String.match under the global flag.  We embed exactly the
constructs those patterns use — character classes, literal characters,
sequencing, alternation, greedy optional, greedy counted repetition of a
character class, and the word boundary — and a backtracking matcher with
JavaScript semantics: leftmost match, greedy quantifiers trying the
longest count first, alternation trying the left branch first, and the
global scan resuming at the end of each match. -/

/-- Pattern AST covering the constructs of the service's regexes. -/
inductive RE where
  | eps : RE
  | cls (p : Char → Bool) : RE
  | bound : RE
  | seq (a b : RE) : RE
  | alt (a b : RE) : RE
  | opt (a : RE) : RE
  | rep (lo : Nat) (hi : Option Nat) (p : Char → Bool) : RE

/-- Character of the subject at an absolute index. -/
def charAt (s : List Char) (i : Nat) : Option Char :=
  (s.drop i).head?

/-- JavaScript word character for the word-boundary assertion. -/
def isWordCharJS (c : Char) : Bool :=
  ('A' ≤ c && c ≤ 'Z') || ('a' ≤ c && c ≤ 'z') || ('0' ≤ c && c ≤ '9') || c = '_'

/-- Does a word boundary hold between positions i-1 and i of the
subject (positions outside the subject count as non-word). -/
def boundaryAt (s : List Char) (i : Nat) : Bool :=
  let before := if i = 0 then false else
    match charAt s (i - 1) with
    | some c => isWordCharJS c
    | none => false
  let here := match charAt s i with
    | some c => isWordCharJS c
    | none => false
  before != here

/-- Length of the maximal run of characters satisfying p from index i,
driven by fuel (the subject length suffices). -/
def maxRunAux (s : List Char) (p : Char → Bool) : Nat → Nat → Nat
  | 0, _ => 0
  | fuel + 1, i =>
      match charAt s i with
      | some c => if p c then maxRunAux s p fuel (i + 1) + 1 else 0
      | none => 0

/-- Length of the maximal run of characters satisfying p from index i. -/
def maxRun (s : List Char) (p : Char → Bool) (i : Nat) : Nat :=
  maxRunAux s p (s.length + 1) i

/-- Greedy backtracking over a repetition count: try the count j first,
then smaller counts down to lo, resuming the continuation at i plus the
chosen count. -/
def tryCounts (k : Nat → Option Nat) (i lo : Nat) : Nat → Option Nat
  | 0 => if lo = 0 then k i else none
  | j + 1 =>
      if j + 1 < lo then none
      else
        match k (i + (j + 1)) with
        | some r => some r
        | none => tryCounts k i lo j

/-- The backtracking matcher in continuation style: try to match the
pattern at index i of the subject and pass the end index to the
continuation, backtracking in JavaScript order on failure. -/
def matchRE (s : List Char) : RE → Nat → (Nat → Option Nat) → Option Nat
  | .eps, i, k => k i
  | .cls p, i, k =>
      match charAt s i with
      | some c => if p c then k (i + 1) else none
      | none => none
  | .bound, i, k => if boundaryAt s i then k i else none
  | .seq a b, i, k => matchRE s a i (fun j => matchRE s b j k)
  | .alt a b, i, k =>
      match matchRE s a i k with
      | some r => some r
      | none => matchRE s b i k
  | .opt a, i, k =>
      match matchRE s a i k with
      | some r => some r
      | none => k i
  | .rep lo hi p, i, k =>
      let m := maxRun s p i
      let top := match hi with
        | some h => Nat.min h m
        | none => m
      tryCounts k i lo top

/-- Global matching: scan start positions left to right, record each
match's text, and resume after it (advancing one position past an empty
match, as the lastIndex rule does). -/
def matchAllAux (re : RE) (s : List Char) : Nat → Nat → List String
  | 0, _ => []
  | fuel + 1, i =>
      if i > s.length then []
      else
        match matchRE s re i some with
        | some e =>
            let value := String.mk ((s.drop i).take (e - i))
            if e ≤ i then value :: matchAllAux re s fuel (i + 1)
            else value :: matchAllAux re s fuel e
        | none => matchAllAux re s fuel (i + 1)

/-- The model of text.match(pattern) with the global flag, as the list
of matched substrings. -/
def jsMatch (re : RE) (text : String) : List String :=
  matchAllAux re text.data (text.data.length + 2) 0

/-- Literal character pattern. -/
def chRE (c : Char) : RE :=
  .cls (fun d => d = c)

/-- Literal string pattern. -/
def strRE (lit : String) : RE :=
  (lit.data.map chRE).foldr .seq .eps

/-- Sequence a list of patterns. -/
def seqList (l : List RE) : RE :=
  l.foldr .seq .eps

/-- Alternation over a list of branches, tried left to right. -/
def altList : List RE → RE
  | [] => .eps
  | [x] => x
  | x :: rest => .alt x (altList rest)

/-- Repetition with at least lo occurrences and no upper bound. -/
def rep1 (p : Char → Bool) : RE :=
  .rep 1 none p

/-- Uppercase ASCII letter class. -/
def isUpperAZ (c : Char) : Bool := 'A' ≤ c && c ≤ 'Z'

/-- Lowercase ASCII letter class. -/
def isLowerAZ (c : Char) : Bool := 'a' ≤ c && c ≤ 'z'

/-- ASCII digit class, the regex d class. -/
def isDigitJS (c : Char) : Bool := '0' ≤ c && c ≤ '9'

/-- JavaScript whitespace class (the regex s class). -/
def isSpaceJS (c : Char) : Bool :=
  c = ' ' || c = '\t' || c = '\n' || c = '\r' || c = Char.ofNat 11 || c = Char.ofNat 12 ||
  c = Char.ofNat 0xa0 || c = Char.ofNat 0x1680 ||
  (Char.ofNat 0x2000 ≤ c && c ≤ Char.ofNat 0x200a) ||
  c = Char.ofNat 0x2028 || c = Char.ofNat 0x2029 || c = Char.ofNat 0x202f ||
  c = Char.ofNat 0x205f || c = Char.ofNat 0x3000 || c = Char.ofNat 0xfeff

/-- The person-name pattern: word boundary, capitalised word, space,
capitalised word, word boundary. -/
def namePattern : RE :=
  seqList [.bound, .cls isUpperAZ, rep1 isLowerAZ, chRE ' ', .cls isUpperAZ, rep1 isLowerAZ, .bound]

/-- The organisation pattern: capitalised word, space, one of the
corporate suffixes. -/
def orgPattern : RE :=
  seqList [.bound, .cls isUpperAZ, rep1 isLowerAZ, chRE ' ',
    altList [strRE "Inc", strRE "Corp", strRE "LLC", strRE "Ltd", strRE "Company", strRE "Corporation"],
    .bound]

/-- Local-part characters of the email pattern. -/
def emailLocalChar (c : Char) : Bool :=
  isUpperAZ c || isLowerAZ c || isDigitJS c || c = '.' || c = '_' || c = '%' || c = '+' || c = '-'

/-- Domain characters of the email pattern. -/
def emailDomainChar (c : Char) : Bool :=
  isUpperAZ c || isLowerAZ c || isDigitJS c || c = '.' || c = '-'

/-- Top-level-domain characters of the email pattern; the source class
is written with a literal pipe inside it, which therefore matches too. -/
def emailTldChar (c : Char) : Bool :=
  isUpperAZ c || c = '|' || isLowerAZ c

/-- The email pattern. -/
def emailPattern : RE :=
  seqList [.bound, rep1 emailLocalChar, chRE '@', rep1 emailDomainChar, chRE '.',
    .rep 2 none emailTldChar, .bound]

/-- The url pattern: http, optional s, colon-slash-slash, then non-space
characters. -/
def urlPattern : RE :=
  seqList [strRE "http", .opt (chRE 's'), chRE ':', chRE '/', chRE '/',
    rep1 (fun c => !isSpaceJS c)]

/-- Separator class of the phone pattern (dash, dot or whitespace). -/
def phoneSep (c : Char) : Bool :=
  c = '-' || c = '.' || isSpaceJS c

/-- The phone pattern: optional international prefix, optional opening
parenthesis, three digits, optional closing parenthesis and separators,
three digits, four digits. -/
def phonePattern : RE :=
  seqList [.opt (seqList [chRE '+', .rep 1 (some 3) isDigitJS, .opt (.cls phoneSep)]),
    .opt (chRE '('), .rep 3 (some 3) isDigitJS, .opt (chRE ')'), .opt (.cls phoneSep),
    .rep 3 (some 3) isDigitJS, .opt (.cls phoneSep), .rep 4 (some 4) isDigitJS]

/-- Slash-or-dash class of the date pattern. -/
def slashDash (c : Char) : Bool :=
  c = '/' || c = '-'

/-- The date pattern: D/D/D-like groups, or the year-first variant. -/
def datePattern : RE :=
  .alt
    (seqList [.bound, .rep 1 (some 2) isDigitJS, .cls slashDash, .rep 1 (some 2) isDigitJS,
      .cls slashDash, .rep 2 (some 4) isDigitJS, .bound])
    (seqList [.bound, .rep 4 (some 4) isDigitJS, .cls slashDash, .rep 1 (some 2) isDigitJS,
      .cls slashDash, .rep 1 (some 2) isDigitJS, .bound])

/-! ### Entity extraction (MastraLocalService) -/

/-- The closed entity-type enum of the shared package. -/
inductive EntityType where
  | person | organization | location | date | time | money | percentage
  | email | phone | url | product | service | event | concept | custom
  deriving DecidableEq

/-- An extracted entity.  Ids in the source are built from the current
time and a random number; they are supplied externally here.  The
constant metadata tag is not modelled. -/
structure Entity where
  id : String
  etype : EntityType
  value : String
  confidence : ℚ
  deriving DecidableEq

/-- The six pattern passes of extractEntitiesFromMessage in source
order (person, organization, email, url, phone, date), as triples of
entity type, matched value and the fixed per-type confidence. -/
def extractRawEntities (text : String) : List (EntityType × String × ℚ) :=
  (jsMatch namePattern text).map (fun v => (.person, v, 0.8)) ++
  (jsMatch orgPattern text).map (fun v => (.organization, v, 0.7)) ++
  (jsMatch emailPattern text).map (fun v => (.email, v, 0.9)) ++
  (jsMatch urlPattern text).map (fun v => (.url, v, 0.9)) ++
  (jsMatch phonePattern text).map (fun v => (.phone, v, 0.8)) ++
  (jsMatch datePattern text).map (fun v => (.date, v, 0.7))

/-- ASCII lowering, the model of toLowerCase on the texts involved. -/
def jsToLower (s : String) : String :=
  String.mk (s.data.map Char.toLower)

/-- Substring containment on character lists, the model of
String.includes. -/
def listContainsSub : List Char → List Char → Bool
  | s, pat =>
      if pat.isPrefixOf s then true
      else
        match s with
        | [] => false
        | _ :: rest => listContainsSub rest pat

/-- The model of haystack.includes(needle). -/
def strIncludes (haystack needle : String) : Bool :=
  listContainsSub haystack.data needle.data

/-- Positive keyword list of extractEntitiesFromMessage. -/
def positiveWordsMessage : List String :=
  ["good", "great", "excellent", "amazing", "wonderful", "love", "like", "happy", "excited"]

/-- Negative keyword list of extractEntitiesFromMessage. -/
def negativeWordsMessage : List String :=
  ["bad", "terrible", "awful", "hate", "dislike", "sad", "angry", "frustrated", "disappointed"]

/-- Number of positive keywords contained in the lowercased text
(extractEntitiesFromMessage counts by substring containment). -/
def messagePositiveCount (text : String) : Nat :=
  (positiveWordsMessage.filter (fun w => strIncludes (jsToLower text) w)).length

/-- Number of negative keywords contained in the lowercased text. -/
def messageNegativeCount (text : String) : Nat :=
  (negativeWordsMessage.filter (fun w => strIncludes (jsToLower text) w)).length

/-- The sentiment computation of extractEntitiesFromMessage. -/
def messageSentiment (text : String) : String :=
  let positiveCount := messagePositiveCount text
  let negativeCount := messageNegativeCount text
  if positiveCount > negativeCount then "positive"
  else if negativeCount > positiveCount then "negative"
  else "neutral"

/-- The topic buckets of extractEntitiesFromMessage: four fixed keyword
groups probed by containment in the lowercased text, defaulting to the
conversation topic. -/
def messageTopics (text : String) : List String :=
  let lower := jsToLower text
  let hit (ws : List String) : Bool := ws.any (fun w => strIncludes lower w)
  let topics :=
    (if hit ["work", "job", "career"] then ["work"] else []) ++
    (if hit ["family", "home", "personal"] then ["personal"] else []) ++
    (if hit ["technology", "ai", "software"] then ["technology"] else []) ++
    (if hit ["health", "medical", "doctor"] then ["health"] else [])
  if topics.length > 0 then topics else ["conversation"]

/-- The result shape of extractEntitiesFromMessage. -/
structure MastraResult where
  entities : List Entity
  summary : String
  sentiment : String
  topics : List String

/-- MastraLocalService.extractEntitiesFromMessage on the message
content.  The id of each pushed entity comes from the current time and a
random number; the supply argument hands out those generated ids in push
order, and nothing else depends on it. -/
def extractEntitiesFromMessage (idSupply : Nat → String) (content : String) : MastraResult :=
  let raw := extractRawEntities content
  let entities := raw.enum.map (fun p =>
    { id := idSupply p.1, etype := p.2.1, value := p.2.2.1, confidence := p.2.2.2 : Entity })
  { entities := entities,
    summary := "Extracted " ++ toString entities.length ++ " entities from message",
    sentiment := messageSentiment content,
    topics := messageTopics content }

/-- Fuel-driven splitter with the semantics of text.split on a
whitespace-run regex: runs of whitespace separate tokens, and a leading
or trailing run contributes an empty token. -/
def splitWsAux : Nat → List Char → List Char → List String
  | 0, _, cur => [String.mk cur.reverse]
  | _ + 1, [], cur => [String.mk cur.reverse]
  | fuel + 1, c :: rest, cur =>
      if isSpaceJS c then
        String.mk cur.reverse :: splitWsAux fuel (rest.dropWhile isSpaceJS) []
      else
        splitWsAux fuel rest (c :: cur)

/-- The model of text.split on a whitespace-run regex. -/
def splitWs (text : String) : List String :=
  splitWsAux (text.data.length + 1) text.data []

/-- Positive keyword list of extractEntitiesFromText (a shorter list
than the message variant). -/
def positiveWordsText : List String :=
  ["good", "great", "excellent", "amazing", "wonderful", "happy", "love", "like"]

/-- Negative keyword list of extractEntitiesFromText. -/
def negativeWordsText : List String :=
  ["bad", "terrible", "awful", "hate", "dislike", "sad", "angry", "frustrated"]

/-- Number of whitespace-separated words of the lowercased text that are
members of the positive list (extractEntitiesFromText counts whole-word
occurrences, not keywords present). -/
def textPositiveCount (text : String) : Nat :=
  ((splitWs (jsToLower text)).filter (fun w => positiveWordsText.contains w)).length

/-- Number of words of the lowercased text in the negative list. -/
def textNegativeCount (text : String) : Nat :=
  ((splitWs (jsToLower text)).filter (fun w => negativeWordsText.contains w)).length

/-- The sentiment computation of extractEntitiesFromText. -/
def textSentiment (text : String) : String :=
  let positiveCount := textPositiveCount text
  let negativeCount := textNegativeCount text
  if positiveCount > negativeCount then "positive"
  else if negativeCount > positiveCount then "negative"
  else "neutral"

/-- The majority vote stated by the spec: positive when strictly more
positive than negative keywords are found, negative in the strictly
opposite case, neutral on ties (hence also when nothing matches).  This
definition follows the spec text and is compared against the two source
computations. -/
def majorityVoteLabel (positives negatives : Nat) : String :=
  if positives > negatives then "positive"
  else if negatives > positives then "negative"
  else "neutral"

/-! ### Messages, the message schema and the realtime gateway

VoiceMessageSchema of the shared package requires non-empty id, content,
userId and sessionId and the literal user type; it imposes no upper
bound on content.  The POST /api/messages handler of the server entry
point validates the body against it, checks the session exists, stores
the message and broadcasts it to the session's Socket.IO room; the
join_session and voice_message socket handlers are modelled alongside. -/

/-- MAX_MESSAGE_LENGTH of the shared package. -/
def MAX_MESSAGE_LENGTH : Nat := 1000

/-- A request body for a voice message, after JSON decoding. -/
structure VoiceMessageReq where
  id : String
  content : String
  userId : String
  sessionId : String
  timestamp : Int
  msgType : String
  deriving DecidableEq

/-- VoiceMessageSchema: each string field non-empty and the type the
literal user; no maximum length is imposed on content. -/
def voiceMessageSchemaOk (m : VoiceMessageReq) : Bool :=
  m.id.length ≥ 1 && m.content.length ≥ 1 && m.userId.length ≥ 1 &&
  m.sessionId.length ≥ 1 && m.msgType = "user"

/-- One row of the messages table (the columns the gateway claims
touch; retrieval order and the metadata column are not involved in the
properties below). -/
structure MessageRow where
  id : String
  session_id : String
  user_id : String
  content : String
  timestamp : Int
  deriving DecidableEq

/-- The stored row of a voice message. -/
def voiceMessageRow (vm : VoiceMessageReq) : MessageRow :=
  { id := vm.id, session_id := vm.sessionId, user_id := vm.userId,
    content := vm.content, timestamp := vm.timestamp }

/-- DatabaseService.addMessage for a voice message. -/
def addVoiceMessage (msgs : List MessageRow) (vm : VoiceMessageReq) : List MessageRow :=
  msgs ++ [voiceMessageRow vm]

/-- Socket.IO room membership: which client has joined which session
room. -/
abbrev Rooms := List (String × String)

/-- Clients currently joined to a session's room. -/
def joinedClients (rooms : Rooms) (sessionId : String) : List String :=
  (rooms.filter (fun m => m.2 = sessionId)).map (fun m => m.1)

/-- socket.join: add the client to the room (a set: joining twice is a
no-op). -/
def joinRoom (rooms : Rooms) (client sessionId : String) : Rooms :=
  if (client, sessionId) ∈ rooms then rooms else rooms ++ [(client, sessionId)]

/-- Events emitted to clients by the gateway. -/
inductive GwEvent where
  | sessionMessages (msgs : List MessageRow) : GwEvent
  | newMessage (m : MessageRow) : GwEvent
  | errorEv (message : String) : GwEvent
  deriving DecidableEq

/-- io.to(room).emit: deliver the event to every client in the room. -/
def ioTo (rooms : Rooms) (sessionId : String) (ev : GwEvent) : List (String × GwEvent) :=
  (joinedClients rooms sessionId).map (fun c => (c, ev))

/-- socket.to(room).emit: deliver the event to every client in the room
except the emitting socket. -/
def socketTo (rooms : Rooms) (sender sessionId : String) (ev : GwEvent) :
    List (String × GwEvent) :=
  ((joinedClients rooms sessionId).filter (fun c => c ≠ sender)).map (fun c => (c, ev))

/-- SELECT messages of one session (the backlog sent at join time). -/
def sessionMessagesOf (msgs : List MessageRow) (sessionId : String) : List MessageRow :=
  msgs.filter (fun m => m.session_id = sessionId)

/-- The join_session socket handler: when the session exists, join the
room and send the backlog to the joining client only; otherwise emit an
error event to the client and leave the room state unchanged. -/
def joinSessionHandler (db : SessionTable) (msgs : List MessageRow) (rooms : Rooms)
    (client sessionId : String) : Rooms × List (String × GwEvent) :=
  match getSessionRow db sessionId with
  | some _ => (joinRoom rooms client sessionId,
      [(client, .sessionMessages (sessionMessagesOf msgs sessionId))])
  | none => (rooms, [(client, .errorEv "Session not found")])

/-- The voice_message socket handler: on a valid payload whose session
exists, store the message and broadcast it with socket.to (which skips
the sender); otherwise emit an error to the sender only. -/
def voiceMessageHandler (db : SessionTable) (msgs : List MessageRow) (rooms : Rooms)
    (sender : String) (payload : VoiceMessageReq) : List MessageRow × List (String × GwEvent) :=
  if voiceMessageSchemaOk payload then
    match getSessionRow db payload.sessionId with
    | some _ => (addVoiceMessage msgs payload,
        socketTo rooms sender payload.sessionId (.newMessage (voiceMessageRow payload)))
    | none => (msgs, [(sender, .errorEv "Session not found")])
  else (msgs, [(sender, .errorEv "Invalid voice message format")])

/-- The POST /api/messages handler: validate the body against
VoiceMessageSchema (400 on failure), check the session exists (404),
store the message and broadcast it with io.to over the session room. -/
def postMessagesHandler (db : SessionTable) (msgs : List MessageRow) (rooms : Rooms)
    (req : VoiceMessageReq) : HttpOutcome × List MessageRow × List (String × GwEvent) :=
  if voiceMessageSchemaOk req then
    match getSessionRow db req.sessionId with
    | some _ => (.ok, addVoiceMessage msgs req,
        ioTo rooms req.sessionId (.newMessage (voiceMessageRow req)))
    | none => (.notFound, msgs, [])
  else (.badRequest, msgs, [])

/-! ### Memories and the voice agent

The Memory record of the shared package (its free-form metadata payload
is not modelled; no property below inspects it), the agent of
voiceAssistant.agent.ts with its MAX_MESSAGE_LENGTH short-circuit, and
the AI integration pipeline of services/ai-integration.ts. -/

/-- The closed memory-type enum of the shared package. -/
inductive MemoryType where
  | conversation | fact | preference | intent | emotion | context | relationship | custom
  deriving DecidableEq

/-- A stored memory record. -/
structure Memory where
  id : String
  mtype : MemoryType
  content : String
  userId : String
  sessionId : Option String
  messageId : Option String
  entities : List String
  importance : ℚ
  tags : List String
  timestamp : Int
  deriving DecidableEq

/-- The result of the voice agent's processMessage. -/
structure AgentResult where
  entities : List Entity
  memories : List Memory
  summary : Option String
  deriving DecidableEq

/-- The message argument shared by the agent and the AI pipeline: the
fields of a Message they read. -/
structure MsgInfo where
  id : String
  content : String
  userId : String
  sessionId : String
  msgType : String
  confidence : Option ℚ

/-- Character class of the agent's email pattern (word characters, dot
and dash). -/
def agentEmailChar (c : Char) : Bool :=
  isWordCharJS c || c = '.' || c = '-'

/-- The agent's email pattern (no word-boundary anchors). -/
def agentEmailPattern : RE :=
  seqList [rep1 agentEmailChar, chRE '@', rep1 agentEmailChar, chRE '.',
    .rep 2 none (fun c => isUpperAZ c || isLowerAZ c)]

/-- The agent's url pattern. -/
def agentUrlPattern : RE :=
  seqList [strRE "http", .opt (chRE 's'), chRE ':', chRE '/', chRE '/',
    rep1 (fun c => !isSpaceJS c)]

/-- createVoiceAgent(...).processMessage: empty or over-long content
(strictly longer than MAX_MESSAGE_LENGTH) short-circuits to empty
entities and memories before the LLM call and the extraction; otherwise
emails and urls are extracted with fixed confidences (the matched text
doubling as entity id) and one conversation memory is stored.  The LLM
text and the stored memory's id and timestamp are supplied externally. -/
def voiceAgentProcessMessage (llmText : String) (storedMemId : String) (storedAt : Int)
    (msg : MsgInfo) : AgentResult :=
  if msg.content.length = 0 || msg.content.length > MAX_MESSAGE_LENGTH then
    { entities := [], memories := [], summary := none }
  else
    let emails := jsMatch agentEmailPattern msg.content
    let urls := jsMatch agentUrlPattern msg.content
    let entities :=
      emails.map (fun e => { id := e, etype := .email, value := e, confidence := 0.9 : Entity }) ++
      urls.map (fun u => { id := u, etype := .url, value := u, confidence := 0.8 : Entity })
    let mem : Memory :=
      { id := storedMemId, mtype := .conversation, content := msg.content,
        userId := msg.userId, sessionId := some msg.sessionId, messageId := some msg.id,
        entities := entities.map (fun e => e.value), importance := 0.5,
        tags := ["conversation"], timestamp := storedAt }
    { entities := entities, memories := [mem], summary := some llmText }

/-! ### The AI integration pipeline (AIIntegrationService.processMessage) -/

/-- Display name of an entity type, as interpolated into memory
contents and tags. -/
def EntityType.label : EntityType → String
  | .person => "person"
  | .organization => "organization"
  | .location => "location"
  | .date => "date"
  | .time => "time"
  | .money => "money"
  | .percentage => "percentage"
  | .email => "email"
  | .phone => "phone"
  | .url => "url"
  | .product => "product"
  | .service => "service"
  | .event => "event"
  | .concept => "concept"
  | .custom => "custom"

/-- AIIntegrationService.mapEntityTypeToMemoryType. -/
def mapEntityTypeToMemoryType : EntityType → MemoryType
  | .person => .relationship
  | .organization => .fact
  | .location => .fact
  | .date => .context
  | .time => .context
  | .money => .fact
  | .percentage => .fact
  | .email => .fact
  | .phone => .fact
  | .url => .fact
  | .product => .preference
  | .service => .preference
  | .event => .context
  | .concept => .fact
  | .custom => .custom

/-- A memory about to be stored (the Memory record minus the id and
timestamp that mem0 assigns on storage). -/
structure MemoryDraft where
  mtype : MemoryType
  content : String
  userId : String
  sessionId : Option String
  messageId : Option String
  entities : List String
  importance : ℚ
  tags : List String

/-- Attach the stored id and timestamp to a draft. -/
def draftToMemory (id : String) (at_ : Int) (d : MemoryDraft) : Memory :=
  { id := id, mtype := d.mtype, content := d.content, userId := d.userId,
    sessionId := d.sessionId, messageId := d.messageId, entities := d.entities,
    importance := d.importance, tags := d.tags, timestamp := at_ }

/-- The effective user id of a processed message: its userId for user
messages, the agent marker otherwise. -/
def effectiveUserId (msg : MsgInfo) : String :=
  if msg.msgType = "user" then msg.userId else "agent"

/-- The per-entity memory draft built inside processMessage. -/
def entityMemoryDraft (msg : MsgInfo) (e : Entity) : MemoryDraft :=
  { mtype := mapEntityTypeToMemoryType e.etype,
    content := "Entity: " ++ e.value ++ " (" ++ e.etype.label ++ ")",
    userId := effectiveUserId msg, sessionId := some msg.sessionId,
    messageId := some msg.id, entities := [e.value], importance := e.confidence,
    tags := [e.etype.label, "entity"] }

/-- AIIntegrationService.calculateMessageImportance. -/
def calculateMessageImportance (msg : MsgInfo) (mr : MastraResult) : ℚ :=
  let base : ℚ := 0.5
  let i1 := if msg.content.length > 100 then base + 0.1 else base
  let i2 := if msg.content.length > 200 then i1 + 0.1 else i1
  let i3 := if mr.entities.length > 0 then i2 + 0.2 else i2
  let i4 := if mr.sentiment = "positive" || mr.sentiment = "negative" then i3 + 0.1 else i3
  let i5 := if msg.msgType = "agent" && (msg.confidence.getD 0) > 0.8 then i4 + 0.1 else i4
  min i5 1

/-- The conversation-level memory draft built inside processMessage. -/
def conversationMemoryDraft (msg : MsgInfo) (mr : MastraResult) : MemoryDraft :=
  { mtype := .conversation, content := msg.content,
    userId := effectiveUserId msg, sessionId := some msg.sessionId,
    messageId := some msg.id, entities := mr.entities.map (fun e => e.value),
    importance := calculateMessageImportance msg mr,
    tags := ["conversation", msg.msgType] ++ mr.topics }

/-- The result of AIIntegrationService.processMessage. -/
structure AIProcessingResult where
  entities : List Entity
  memories : List Memory
  summary : Option String
  sentiment : Option String
  topics : Option (List String)
  deriving DecidableEq

/-- The degraded result returned when the service is unconfigured or
the pipeline fails. -/
def emptyAIResult : AIProcessingResult :=
  { entities := [], memories := [], summary := none, sentiment := none, topics := none }

/-- AIIntegrationService.processMessage.  Extraction is one awaited
call that may reject (the outer catch returns the degraded empty
result).  Each mem0 storeMemory call may fail independently; its inner
catch only logs, so a failed store is skipped and the loop continues.
Store calls are numbered in call order — one per entity, then one for
the conversation memory — and the storeOk argument says which succeed,
while storedId and storedAt supply the id and timestamp mem0 assigns. -/
def processMessageAI (configured : Bool) (extractRes : Except String MastraResult)
    (storeOk : Nat → Bool) (storedId : Nat → String) (storedAt : Nat → Int)
    (msg : MsgInfo) : AIProcessingResult :=
  if !configured then emptyAIResult
  else
    match extractRes with
    | .error _ => emptyAIResult
    | .ok mr =>
        let drafts := (mr.entities.map (entityMemoryDraft msg)).enum
        let stored := (drafts.filter (fun p => storeOk p.1)).map
          (fun p => draftToMemory (storedId p.1) (storedAt p.1) p.2)
        let n := mr.entities.length
        let memories :=
          if storeOk n then
            stored ++ [draftToMemory (storedId n) (storedAt n) (conversationMemoryDraft msg mr)]
          else stored
        { entities := mr.entities, memories := memories, summary := some mr.summary,
          sentiment := some mr.sentiment, topics := some mr.topics }

/-! ### Helper lemmas -/

/-- Updating a session row never changes its id. -/
theorem applySessionUpdates_id (u : SessionUpdates) (r : SessionRow) :
    (applySessionUpdates u r).id = r.id := by
  unfold applySessionUpdates
  cases u.status <;> cases u.endTime <;> cases u.metadata <;> rfl

/-- Looking up a session after updateSession yields the updated row. -/
theorem getSessionRow_updateSession (db : SessionTable) (sid : String) (u : SessionUpdates) :
    getSessionRow (updateSession db sid u) sid = (getSessionRow db sid).map (applySessionUpdates u) := by
  induction db with
  | nil => rfl
  | cons r rest ih =>
      unfold updateSession at *
      unfold getSessionRow at *
      by_cases h : r.id = sid
      · simp [List.find?_cons, h, applySessionUpdates_id]
      · simp [List.find?_cons, h, ih]

/-- Rows of an updated table are either untouched rows of the original
or updated rows of the original. -/
theorem mem_updateSession {db : SessionTable} {sid : String} {u : SessionUpdates} {r : SessionRow}
    (h : r ∈ updateSession db sid u) :
    (r ∈ db ∧ r.id ≠ sid) ∨ ∃ r0 ∈ db, r0.id = sid ∧ r = applySessionUpdates u r0 := by
  unfold updateSession at h
  rcases List.mem_map.mp h with ⟨r0, hr0, heq⟩
  by_cases hid : r0.id = sid
  · right
    exact ⟨r0, hr0, hid, by simpa [hid] using heq.symm⟩
  · left
    simp only [hid, if_false] at heq
    subst heq
    exact ⟨hr0, hid⟩

/-- Lookup over an appended table prefers the first table. -/
theorem getUserByEmail_append (db1 db2 : UserTable) (email : String) :
    getUserByEmail (db1 ++ db2) email =
      ((getUserByEmail db1 email).or (getUserByEmail db2 email)) := by
  unfold getUserByEmail
  exact List.find?_append

/-! ### Claim C1 — the endTime/status invariant across the public operations -/

/-- A reachable table obtained by creating a session, ending it, and
resuming it. -/
def c1TraceDb : SessionTable :=
  (resumeSessionHandler
    (endSessionHandler
      (createSessionHandler [] "s1" "u1" 0 none).2 "s1" 5).2 "s1").2

/-- Claim C1 is false on the code: after create, end and resume — all
public operations — the table is reachable yet holds a session with
status active and endTime still set, because the resume handler passes
no endTime and updateSession never clears end_time. -/
theorem c1_invariant_fails_after_resume :
    SessionReach c1TraceDb ∧ ∃ r ∈ c1TraceDb, ¬ sessionInvariant r :=
  ⟨.next (.next (.next .init (.create [] "s1" "u1" 0 none))
      (.endS (createSessionHandler [] "s1" "u1" 0 none).2 "s1" 5))
      (.resume (endSessionHandler (createSessionHandler [] "s1" "u1" 0 none).2 "s1" 5).2 "s1"),
    by decide⟩

/-- Claim C1 amended: creation establishes the invariant and the end
handler preserves it, but the resume handler updates the status alone
and updateSession never clears end_time, so resuming a previously ended
session (whose endTime is set whenever the invariant held) yields a
session with status active and endTime still set — the invariant does
not survive resume. -/
theorem c1_invariant_analysis :
    (∀ (db : SessionTable) (newId userId : String) (now : Int) (metadata : Option Json),
       ∀ r ∈ (createSessionHandler db newId userId now metadata).2, r ∈ db ∨ sessionInvariant r) ∧
    (∀ (db : SessionTable) (sid : String) (now : Int),
       (∀ r ∈ db, sessionInvariant r) → ∀ r ∈ (endSessionHandler db sid now).2, sessionInvariant r) ∧
    (∀ (db : SessionTable) (sid : String) (s : SessionRow),
       getSessionRow db sid = some s → s.status = .ended →
       getSessionRow (resumeSessionHandler db sid).2 sid = some { s with status := .active } ∧
       (s.end_time.isSome → ∃ r ∈ (resumeSessionHandler db sid).2, ¬ sessionInvariant r)) := by
  refine ⟨?_, ?_, ?_⟩
  · intro db newId userId now metadata r hr
    unfold createSessionHandler at hr
    rcases List.mem_append.mp hr with h | h
    · exact Or.inl h
    · right
      simp only [List.mem_singleton] at h
      subst h
      simp [sessionInvariant]
  · intro db sid now hinv r hr
    unfold endSessionHandler at hr
    cases hfind : getSessionRow db sid with
    | none =>
        rw [hfind] at hr
        exact hinv r hr
    | some s =>
        rw [hfind] at hr
        by_cases hend : s.status = .ended
        · simp only [hend, if_true] at hr
          exact hinv r hr
        · simp only [hend, if_false] at hr
          rcases mem_updateSession hr with ⟨hmem, _⟩ | ⟨r0, _, _, heq⟩
          · exact hinv r hmem
          · subst heq
            simp [applySessionUpdates, sessionInvariant]
  · intro db sid s hfind hended
    have hne : s.status ≠ .active := by
      rw [hended]
      intro h
      cases h
    unfold resumeSessionHandler
    rw [hfind]
    simp only [hne, if_false]
    constructor
    · rw [getSessionRow_updateSession, hfind]
      rfl
    · intro hsome
      have hx : getSessionRow
          (updateSession db sid { status := some .active, endTime := none, metadata := none }) sid =
          some (applySessionUpdates { status := some .active, endTime := none, metadata := none } s) := by
        rw [getSessionRow_updateSession, hfind]
        rfl
      refine ⟨applySessionUpdates { status := some .active, endTime := none, metadata := none } s,
        List.mem_of_find?_eq_some hx, ?_⟩
      simp [applySessionUpdates, sessionInvariant, hsome]

/-- A concrete active session row. -/
def c1ActiveRow : SessionRow :=
  { id := "s1", user_id := "u1", start_time := 0, end_time := none,
    status := .active, metadataBlob := "" }

/-- A concrete ended session row with its endTime set. -/
def c1EndedRow : SessionRow :=
  { id := "s1", user_id := "u1", start_time := 0, end_time := some 5,
    status := .ended, metadataBlob := "" }

/-- Witness for the amended C1 at concrete inputs: a freshly created
session satisfies the invariant, ending a concrete session preserves
it, and resuming a concrete ended session with endTime set produces a
violating row. -/
theorem c1_invariant_analysis_witness :
    (∀ r ∈ (createSessionHandler [] "s1" "u1" 0 none).2, r ∈ ([] : SessionTable) ∨ sessionInvariant r) ∧
    (∀ r ∈ (endSessionHandler [c1ActiveRow] "s1" 7).2, sessionInvariant r) ∧
    (∃ r ∈ (resumeSessionHandler [c1EndedRow] "s1").2, ¬ sessionInvariant r) :=
  ⟨c1_invariant_analysis.1 [] "s1" "u1" 0 none,
   c1_invariant_analysis.2.1 [c1ActiveRow] "s1" 7 (by decide),
   (c1_invariant_analysis.2.2 [c1EndedRow] "s1" c1EndedRow rfl rfl).2 rfl⟩

/-! ### Claim C2 — message validation and the over-long-text short-circuit -/

/-- A content string longer than MAX_MESSAGE_LENGTH. -/
def c2LongContent : String := String.mk (List.replicate 1001 'a')

/-- A syntactically valid voice-message request carrying the over-long
content. -/
def c2LongReq : VoiceMessageReq :=
  { id := "m1", content := c2LongContent, userId := "u1", sessionId := "s1",
    timestamp := 0, msgType := "user" }

/-- A session table containing the request's session. -/
def c2Db : SessionTable :=
  [{ id := "s1", user_id := "u1", start_time := 0, end_time := none,
     status := .active, metadataBlob := "" }]

/-- Claim C2 is false on the code as far as the HTTP handler is
concerned: VoiceMessageSchema puts no upper bound on content, so a
request whose content exceeds MAX_MESSAGE_LENGTH passes validation and
the POST /api/messages handler accepts and stores it with 200 rather
than failing with InvalidInput/400. -/
theorem c2_no_max_length_validation :
    c2LongContent.length > MAX_MESSAGE_LENGTH ∧
    voiceMessageSchemaOk c2LongReq = true ∧
    (postMessagesHandler c2Db [] [] c2LongReq).1 = .ok := by
  refine ⟨by decide, by decide, ?_⟩
  rfl

/-- Claim C2 amended: the handler validates that the session exists
(404 otherwise) and that the schema holds — in particular content must
be non-empty (400 otherwise) — but imposes no maximum length; the
MAX_MESSAGE_LENGTH short-circuit lives in the voice agent, whose
processMessage returns zero entities and zero memories for any content
longer than the maximum, before the LLM call and the extraction. -/
theorem c2_validation_and_shortcircuit :
    (∀ (db : SessionTable) (msgs : List MessageRow) (rooms : Rooms) (req : VoiceMessageReq),
       voiceMessageSchemaOk req = false → (postMessagesHandler db msgs rooms req).1 = .badRequest) ∧
    (∀ (db : SessionTable) (msgs : List MessageRow) (rooms : Rooms) (req : VoiceMessageReq),
       voiceMessageSchemaOk req = true → getSessionRow db req.sessionId = none →
       (postMessagesHandler db msgs rooms req).1 = .notFound) ∧
    (∀ (db : SessionTable) (msgs : List MessageRow) (rooms : Rooms) (req : VoiceMessageReq),
       req.content = "" → (postMessagesHandler db msgs rooms req).1 = .badRequest) ∧
    (∀ (llmText storedMemId : String) (storedAt : Int) (msg : MsgInfo),
       msg.content.length > MAX_MESSAGE_LENGTH →
       (voiceAgentProcessMessage llmText storedMemId storedAt msg).entities = [] ∧
       (voiceAgentProcessMessage llmText storedMemId storedAt msg).memories = []) := by
  refine ⟨?_, ?_, ?_, ?_⟩
  · intro db msgs rooms req h
    simp [postMessagesHandler, h]
  · intro db msgs rooms req hok hnone
    simp [postMessagesHandler, hok, hnone]
  · intro db msgs rooms req hempty
    have h : voiceMessageSchemaOk req = false := by
      simp [voiceMessageSchemaOk, hempty]
    simp [postMessagesHandler, h]
  · intro llmText storedMemId storedAt msg hlong
    have h : (msg.content.length = 0 || msg.content.length > MAX_MESSAGE_LENGTH) = true := by
      simp [hlong]
    constructor <;> simp [voiceAgentProcessMessage, h]

/-- A schema-invalid request (empty content). -/
def c2EmptyReq : VoiceMessageReq :=
  { id := "m1", content := "", userId := "u1", sessionId := "s1",
    timestamp := 0, msgType := "user" }

/-- A valid request for an unknown session. -/
def c2OrphanReq : VoiceMessageReq :=
  { id := "m1", content := "hello", userId := "u1", sessionId := "nope",
    timestamp := 0, msgType := "user" }

/-- An over-long message handed to the voice agent. -/
def c2LongMsg : MsgInfo :=
  { id := "m1", content := c2LongContent, userId := "u1", sessionId := "s1",
    msgType := "user", confidence := none }

/-- Witness for the amended C2 at concrete inputs. -/
theorem c2_validation_and_shortcircuit_witness :
    (postMessagesHandler c2Db [] [] c2EmptyReq).1 = .badRequest ∧
    (postMessagesHandler c2Db [] [] c2OrphanReq).1 = .notFound ∧
    (voiceAgentProcessMessage "llm" "mem1" 0 c2LongMsg).entities = [] ∧
    (voiceAgentProcessMessage "llm" "mem1" 0 c2LongMsg).memories = [] :=
  ⟨c2_validation_and_shortcircuit.2.2.1 c2Db [] [] c2EmptyReq rfl,
   c2_validation_and_shortcircuit.2.1 c2Db [] [] c2OrphanReq (by decide) rfl,
   (c2_validation_and_shortcircuit.2.2.2 "llm" "mem1" 0 c2LongMsg (by decide)).1,
   (c2_validation_and_shortcircuit.2.2.2 "llm" "mem1" 0 c2LongMsg (by decide)).2⟩

/-! ### Claim C3 — metadata round-trip and the corrupted-blob read -/

/-- A session table whose stored metadata blob is not well-formed JSON,
as the repository's own database test mocks it. -/
def c3CorruptDb : SessionTable :=
  [{ id := "s1", user_id := "u1", start_time := 0, end_time := none,
     status := .active, metadataBlob := "invalid-json" }]

/-- A concrete nested metadata object. -/
def c3Meta : Json :=
  .obj [("device", .str "web"), ("volume", .num 5), ("flags", .arr [.bool true, .null])]

/-- A session carrying that metadata. -/
def c3Session : Session :=
  { id := "s1", userId := "u1", startTime := 0, endTime := none,
    status := .active, metadata := some c3Meta }

/-- Claim C3 against the code: storing a session with a metadata object
and reading it back round-trips to a deep-equal object, but on the
corrupted blob the read does not decode to undefined — getSession feeds
the blob to a bare JSON.parse, whose SyntaxError propagates (the
repository's own test at the invalid-json input expects undefined
instead, so the code contradicts its test). -/
theorem c3_roundtrip_and_corrupt_read :
    getSession (createSession [] c3Session) "s1" = .ok (some c3Session) ∧
    getSession c3CorruptDb "s1" = .error "SyntaxError: Unexpected token in JSON" := by
  constructor <;> rfl

/-! ### Claim C5 — extraction on the email-and-url sentence -/

/-- The input sentence of the claim. -/
def c5Text : String := "Contact me at a@b.com and visit https://example.com"

/-- Claim C5 holds: extraction on the sentence yields exactly one email
entity a@b.com and one url entity, in that order, with their fixed
confidences, and no entity of any other type (the person, organization,
phone and date patterns find nothing on this input).  The generated ids
are irrelevant; the id supply is arbitrary here. -/
theorem c5_email_url_extraction :
    (extractEntitiesFromMessage (fun n => "entity_" ++ toString n) c5Text).entities.map
      (fun e => (e.etype, e.value, e.confidence)) =
    [(.email, "a@b.com", 0.9), (.url, "https://example.com", 0.9)] := by
  rfl

/-! ### Claim C4 — cleanupExpiredSessions transitions exactly the expired
active sessions and returns their count -/

/-- Claim C4 holds: one cleanup pass maps each session that is active
and older than the 30-minute window to the ended session with endTime
now, leaves every other session (paused and ended ones included)
unchanged, and returns exactly the number of sessions so transitioned. -/
theorem c4_cleanup_exact (db : SessionTable) (now : Int) :
    (cleanupExpiredSessions db now).1 =
      db.map (fun r => if sessionExpired now r then
        { r with status := .ended, end_time := some now } else r) ∧
    (cleanupExpiredSessions db now).2 = db.countP (fun r => sessionExpired now r) := by
  induction db with
  | nil => exact ⟨rfl, rfl⟩
  | cons r rest ih =>
      unfold cleanupExpiredSessions
      by_cases h : sessionExpired now r = true
      · simp [h, ih.1, ih.2, List.countP_cons]
      · simp [h, ih.1, ih.2, List.countP_cons]

/-! ### Claim C6 — sentiment is a majority vote in both entry points -/

/-- Claim C6 holds: in both extraction entry points the sentiment label
is exactly the spec's majority vote over that entry point's own counts
— substring containment of the keyword lists in
extractEntitiesFromMessage, whole-word membership in
extractEntitiesFromText — with ties (hence also the no-match case)
resolving to neutral. -/
theorem c6_sentiment_majority_vote (text : String) :
    messageSentiment text = majorityVoteLabel (messagePositiveCount text) (messageNegativeCount text) ∧
    textSentiment text = majorityVoteLabel (textPositiveCount text) (textNegativeCount text) ∧
    (messagePositiveCount text = messageNegativeCount text → messageSentiment text = "neutral") ∧
    (textPositiveCount text = textNegativeCount text → textSentiment text = "neutral") := by
  refine ⟨rfl, rfl, ?_, ?_⟩
  · intro h
    simp [messageSentiment, h]
  · intro h
    simp [textSentiment, h]

/-- Witness for C6 at a concrete input: the text mentions no keyword of
either list, the counts tie at zero, and both entry points answer
neutral. -/
theorem c6_sentiment_majority_vote_witness :
    messageSentiment "the sky is blue" = "neutral" ∧
    textSentiment "the sky is blue" = "neutral" :=
  ⟨(c6_sentiment_majority_vote "the sky is blue").2.2.1 (by decide),
   (c6_sentiment_majority_vote "the sky is blue").2.2.2 (by decide)⟩

/-! ### Claim C7 — user email uniqueness and atomicity of the failed insert -/

/-- A creation attempt against a table that already holds the email
answers conflict and leaves the table unchanged. -/
theorem createUserHandler_conflict (db : UserTable) (newId name email : String) (prefs : Json)
    (u : UserRow) (hu : getUserByEmail db email = some u) :
    createUserHandler db newId name email prefs = (.conflict, db) := by
  unfold createUserHandler
  rw [hu]

/-- Claim C7 holds: when no user with the email exists the first
creation succeeds and stores the record; a second creation with the
same email — indeed any creation whose email follows an earlier
creation with that email — answers Conflict and leaves the table, and
in particular the first user's stored record, untouched. -/
theorem c7_user_email_unique (db : UserTable) (id1 name1 email : String) (prefs1 : Json)
    (id2 name2 : String) (prefs2 : Json) :
    (getUserByEmail db email = none →
       (createUserHandler db id1 name1 email prefs1).1 = .created ∧
       getUserByEmail (createUserHandler db id1 name1 email prefs1).2 email =
         some { id := id1, name := name1, email := email,
                preferencesBlob := jsonStringify prefs1 }) ∧
    (createUserHandler (createUserHandler db id1 name1 email prefs1).2 id2 name2 email prefs2).1
      = .conflict ∧
    (createUserHandler (createUserHandler db id1 name1 email prefs1).2 id2 name2 email prefs2).2
      = (createUserHandler db id1 name1 email prefs1).2 := by
  have hafter : ∃ u, getUserByEmail (createUserHandler db id1 name1 email prefs1).2 email = some u := by
    unfold createUserHandler
    cases hfind : getUserByEmail db email with
    | some u =>
        exact ⟨u, hfind⟩
    | none =>
        refine ⟨{ id := id1, name := name1, email := email,
                  preferencesBlob := jsonStringify prefs1 }, ?_⟩
        rw [getUserByEmail_append, hfind]
        simp [getUserByEmail]
  rcases hafter with ⟨u, hu⟩
  have hc := createUserHandler_conflict (createUserHandler db id1 name1 email prefs1).2
    id2 name2 email prefs2 u hu
  refine ⟨?_, ?_, ?_⟩
  · intro hnone
    unfold createUserHandler
    rw [hnone]
    refine ⟨rfl, ?_⟩
    rw [getUserByEmail_append, hnone]
    simp [getUserByEmail]
  · rw [hc]
  · rw [hc]

/-- Witness for C7 at concrete inputs: on an empty table the first
creation succeeds, and the duplicate creation conflicts without
altering the table. -/
theorem c7_user_email_unique_witness :
    ((createUserHandler [] "u1" "Ann" "a@b.com" .null).1 = .created ∧
      getUserByEmail (createUserHandler [] "u1" "Ann" "a@b.com" .null).2 "a@b.com" =
        some { id := "u1", name := "Ann", email := "a@b.com",
               preferencesBlob := jsonStringify .null }) ∧
    (createUserHandler (createUserHandler [] "u1" "Ann" "a@b.com" .null).2
        "u2" "Bob" "a@b.com" .null).1 = .conflict ∧
    (createUserHandler (createUserHandler [] "u1" "Ann" "a@b.com" .null).2
        "u2" "Bob" "a@b.com" .null).2 = (createUserHandler [] "u1" "Ann" "a@b.com" .null).2 :=
  ⟨(c7_user_email_unique [] "u1" "Ann" "a@b.com" .null "u2" "Bob" .null).1 rfl,
   (c7_user_email_unique [] "u1" "Ann" "a@b.com" .null "u2" "Bob" .null).2.1,
   (c7_user_email_unique [] "u1" "Ann" "a@b.com" .null "u2" "Bob" .null).2.2⟩

/-! ### Claim C8 — failure semantics of the enrichment pipeline -/

/-- A concrete extracted entity. -/
def c8Entity : Entity := { id := "e1", etype := .email, value := "a@b.com", confidence := 0.9 }

/-- A concrete extraction result with one entity. -/
def c8Extracted : MastraResult :=
  { entities := [c8Entity], summary := "Extracted 1 entities from message",
    sentiment := "neutral", topics := ["conversation"] }

/-- A concrete processed message. -/
def c8Msg : MsgInfo :=
  { id := "m1", content := "hi", userId := "u1", sessionId := "s1",
    msgType := "user", confidence := none }

/-- Claim C8 is false on the code as stated: when extraction succeeds
but every memory store fails, processMessage swallows the store
failures yet returns the extracted entities — a non-empty entity list —
so a memory-store failure does not degrade the result to empty entity
and memory lists. -/
theorem c8_store_failure_keeps_entities :
    (processMessageAI true (.ok c8Extracted) (fun _ => false) (fun _ => "") (fun _ => 0) c8Msg).memories
      = [] ∧
    (processMessageAI true (.ok c8Extracted) (fun _ => false) (fun _ => "") (fun _ => 0) c8Msg).entities
      = [c8Entity] ∧
    [c8Entity] ≠ ([] : List Entity) := by
  refine ⟨rfl, rfl, ?_⟩
  simp

/-- Claim C8 amended: processMessage is total — it always returns a
result rather than propagating an error, so the preceding message write
and the HTTP 200/broadcast are unaffected — and degrades as follows: an
unconfigured service or a failed extraction yields empty entity and
memory lists, while per-memory store failures are swallowed
individually, the returned entities staying exactly the extracted ones
and the memory list keeping only the successfully stored records (all
of them plus the conversation memory when every store succeeds, none
when every store fails). -/
theorem c8_best_effort_enrichment (configured : Bool) (extractRes : Except String MastraResult)
    (storeOk : Nat → Bool) (storedId : Nat → String) (storedAt : Nat → Int) (msg : MsgInfo) :
    (configured = false →
       processMessageAI configured extractRes storeOk storedId storedAt msg = emptyAIResult) ∧
    (∀ e, extractRes = .error e →
       processMessageAI configured extractRes storeOk storedId storedAt msg = emptyAIResult) ∧
    (∀ mr, configured = true → extractRes = .ok mr →
       (processMessageAI configured extractRes storeOk storedId storedAt msg).entities = mr.entities ∧
       (processMessageAI configured extractRes storeOk storedId storedAt msg).summary = some mr.summary ∧
       ((∀ i, storeOk i = false) →
          (processMessageAI configured extractRes storeOk storedId storedAt msg).memories = []) ∧
       ((∀ i, storeOk i = true) →
          (processMessageAI configured extractRes storeOk storedId storedAt msg).memories.length
            = mr.entities.length + 1)) := by
  refine ⟨?_, ?_, ?_⟩
  · intro h
    subst h
    rfl
  · intro e h
    subst h
    cases configured <;> rfl
  · intro mr hconf hok
    subst hconf
    subst hok
    refine ⟨rfl, rfl, ?_, ?_⟩
    · intro hall
      have hfil : ((mr.entities.map (entityMemoryDraft msg)).enum.filter
          (fun p => storeOk p.1)) = [] :=
        List.filter_eq_nil_iff.mpr (fun p _ => by simp [hall p.1])
      simp [processMessageAI, hfil, hall]
    · intro hall
      have hfil : ((mr.entities.map (entityMemoryDraft msg)).enum.filter
          (fun p => storeOk p.1)) = (mr.entities.map (entityMemoryDraft msg)).enum :=
        List.filter_eq_self.mpr (fun p _ => by simp [hall p.1])
      simp [processMessageAI, hfil, hall]

/-- Witness for the amended C8 at concrete inputs: unconfigured and
failed-extraction runs degrade to the empty result, and a successful
run with every store succeeding returns the extracted entity and both
memories. -/
theorem c8_best_effort_enrichment_witness :
    processMessageAI false (.ok c8Extracted) (fun _ => true) (fun _ => "") (fun _ => 0) c8Msg
      = emptyAIResult ∧
    processMessageAI true (.error "mastra down") (fun _ => true) (fun _ => "") (fun _ => 0) c8Msg
      = emptyAIResult ∧
    (processMessageAI true (.ok c8Extracted) (fun _ => true) (fun _ => "") (fun _ => 0) c8Msg).entities
      = [c8Entity] ∧
    (processMessageAI true (.ok c8Extracted) (fun _ => true) (fun _ => "") (fun _ => 0) c8Msg).memories.length
      = 2 :=
  ⟨(c8_best_effort_enrichment false (.ok c8Extracted) (fun _ => true) (fun _ => "") (fun _ => 0) c8Msg).1 rfl,
   (c8_best_effort_enrichment true (.error "mastra down") (fun _ => true) (fun _ => "") (fun _ => 0) c8Msg).2.1
     "mastra down" rfl,
   ((c8_best_effort_enrichment true (.ok c8Extracted) (fun _ => true) (fun _ => "") (fun _ => 0) c8Msg).2.2
     c8Extracted rfl rfl).1,
   ((c8_best_effort_enrichment true (.ok c8Extracted) (fun _ => true) (fun _ => "") (fun _ => 0) c8Msg).2.2
     c8Extracted rfl rfl).2.2.2 (fun _ => rfl)⟩

/-! ### Claim C9 — realtime gateway: join errors and broadcast delivery -/

/-- A session table holding the session s1. -/
def c9Db : SessionTable :=
  [{ id := "s1", user_id := "u1", start_time := 0, end_time := none,
     status := .active, metadataBlob := "" }]

/-- The room state after client A joins session s1. -/
def c9Rooms : Rooms := (joinSessionHandler c9Db [] [] "A" "s1").1

/-- A valid voice message for session s1 sent by client A. -/
def c9Vm : VoiceMessageReq :=
  { id := "m1", content := "hello", userId := "u1", sessionId := "s1",
    timestamp := 1, msgType := "user" }

/-- Claim C9 is false on the code as stated: client A is joined to
session s1, yet the broadcast of A's own voice_message delivers to no
one — socket.to excludes the emitting client, so a joined client (the
sender) does not receive the message broadcast for its session. -/
theorem c9_sender_excluded_from_broadcast :
    "A" ∈ joinedClients c9Rooms "s1" ∧
    (voiceMessageHandler c9Db [] c9Rooms "A" c9Vm).2 = [] := by
  constructor
  · decide
  · rfl

/-- Claim C9 amended: joining an unknown sessionId yields exactly one
error event to the requesting client and leaves the room state
unchanged; a voice_message broadcast on a known session is delivered
through socket.to to exactly the clients joined to that session other
than the sender (so never to an unjoined client, and not to the sender
even when joined), while the HTTP-route broadcast through io.to reaches
exactly the joined clients. -/
theorem c9_gateway_join_and_delivery :
    (∀ (db : SessionTable) (msgs : List MessageRow) (rooms : Rooms) (c sid : String),
       getSessionRow db sid = none →
       joinSessionHandler db msgs rooms c sid = (rooms, [(c, .errorEv "Session not found")])) ∧
    (∀ (rooms : Rooms) (sender sid : String) (ev : GwEvent) (target : String) (ev2 : GwEvent),
       (target, ev2) ∈ socketTo rooms sender sid ev →
       target ∈ joinedClients rooms sid ∧ target ≠ sender ∧ ev2 = ev) ∧
    (∀ (rooms : Rooms) (sender sid : String) (ev : GwEvent) (target : String),
       target ∈ joinedClients rooms sid → target ≠ sender →
       (target, ev) ∈ socketTo rooms sender sid ev) ∧
    (∀ (rooms : Rooms) (sid : String) (ev : GwEvent) (target : String) (ev2 : GwEvent),
       (target, ev2) ∈ ioTo rooms sid ev → target ∈ joinedClients rooms sid ∧ ev2 = ev) ∧
    (∀ (rooms : Rooms) (sid : String) (ev : GwEvent) (target : String),
       target ∈ joinedClients rooms sid → (target, ev) ∈ ioTo rooms sid ev) ∧
    (∀ (db : SessionTable) (msgs : List MessageRow) (rooms : Rooms) (sender : String)
       (vm : VoiceMessageReq) (s : SessionRow),
       voiceMessageSchemaOk vm = true → getSessionRow db vm.sessionId = some s →
       (voiceMessageHandler db msgs rooms sender vm).2
         = socketTo rooms sender vm.sessionId (.newMessage (voiceMessageRow vm))) := by
  refine ⟨?_, ?_, ?_, ?_, ?_, ?_⟩
  · intro db msgs rooms c sid h
    simp [joinSessionHandler, h]
  · intro rooms sender sid ev target ev2 h
    unfold socketTo at h
    rcases List.mem_map.mp h with ⟨c, hc, heq⟩
    rcases List.mem_filter.mp hc with ⟨hjoin, hne⟩
    obtain ⟨rfl, rfl⟩ : c = target ∧ ev = ev2 := by
      constructor
      · exact congrArg Prod.fst heq
      · exact congrArg Prod.snd heq
    exact ⟨hjoin, by simpa using hne, rfl⟩
  · intro rooms sender sid ev target hjoin hne
    unfold socketTo
    exact List.mem_map.mpr ⟨target, List.mem_filter.mpr ⟨hjoin, by simpa using hne⟩, rfl⟩
  · intro rooms sid ev target ev2 h
    unfold ioTo at h
    rcases List.mem_map.mp h with ⟨c, hc, heq⟩
    obtain ⟨rfl, rfl⟩ : c = target ∧ ev = ev2 := by
      constructor
      · exact congrArg Prod.fst heq
      · exact congrArg Prod.snd heq
    exact ⟨hc, rfl⟩
  · intro rooms sid ev target hjoin
    exact List.mem_map.mpr ⟨target, hjoin, rfl⟩
  · intro db msgs rooms sender vm s hok hfind
    simp [voiceMessageHandler, hok, hfind]

/-- Witness for the amended C9 at concrete inputs: joining the unknown
session nope errors without changing the rooms; the broadcast of a
message from client B on session s1 reaches the joined client A and the
joined client A is delivered to when distinct from the sender. -/
theorem c9_gateway_join_and_delivery_witness :
    joinSessionHandler c9Db [] c9Rooms "B" "nope"
      = (c9Rooms, [("B", .errorEv "Session not found")]) ∧
    ("A", GwEvent.newMessage (voiceMessageRow c9Vm)) ∈
      socketTo c9Rooms "B" "s1" (.newMessage (voiceMessageRow c9Vm)) ∧
    (voiceMessageHandler c9Db [] c9Rooms "B" c9Vm).2
      = socketTo c9Rooms "B" "s1" (.newMessage (voiceMessageRow c9Vm)) :=
  ⟨c9_gateway_join_and_delivery.1 c9Db [] c9Rooms "B" "nope" rfl,
   c9_gateway_join_and_delivery.2.2.1 c9Rooms "B" "s1"
     (.newMessage (voiceMessageRow c9Vm)) "A" (by decide) (by decide),
   c9_gateway_join_and_delivery.2.2.2.2.2 c9Db [] c9Rooms "B" c9Vm
     { id := "s1", user_id := "u1", start_time := 0, end_time := none,
       status := .active, metadataBlob := "" } (by decide) rfl⟩

/-! ### Claim C10 — extraction is deterministic up to generated ids -/

/-- Claim C10 holds: the generated entity ids are the only part of the
extraction result that depends on the id supply (the stand-in for the
time-and-random id generator); the (type, value, confidence) triples,
their order, the sentiment, the topics and even the summary coincide
across any two runs on the same text. -/
theorem c10_extraction_deterministic (text : String) (ids1 ids2 : Nat → String) :
    (extractEntitiesFromMessage ids1 text).entities.map (fun e => (e.etype, e.value, e.confidence))
      = (extractEntitiesFromMessage ids2 text).entities.map (fun e => (e.etype, e.value, e.confidence)) ∧
    (extractEntitiesFromMessage ids1 text).sentiment = (extractEntitiesFromMessage ids2 text).sentiment ∧
    (extractEntitiesFromMessage ids1 text).topics = (extractEntitiesFromMessage ids2 text).topics ∧
    (extractEntitiesFromMessage ids1 text).summary = (extractEntitiesFromMessage ids2 text).summary := by
  unfold extractEntitiesFromMessage
  refine ⟨?_, rfl, rfl, ?_⟩
  · rw [List.map_map, List.map_map]
    rfl
  · simp [List.length_map]

end VoiceAgent
